import Mathlib

/-!
Verification of the detection-result normalization and resilience layer of
the AICR backend (`src/backend/api.py`, function `detect_with_openai_vision`).

Python strings are embedded as `List Char` and the Python string methods
used by the source (`split`, `strip`, `startswith`, `lower`, `in`) are
given explicit executable definitions over that representation.
-/

abbrev PyStr := List Char

/-- Whitespace characters stripped by Python `str.strip()` (ASCII set). -/
def isPySpace (c : Char) : Bool :=
  c = ' ' || c = '\t' || c = '\n' || c = '\r' || c = '\x0b' || c = '\x0c'

/-- Python `s.strip()`: drop leading and trailing whitespace. -/
def pyStrip (s : PyStr) : PyStr :=
  ((s.dropWhile isPySpace).reverse.dropWhile isPySpace).reverse

/-- Python `s.lower()` (ASCII lowering, as used on error messages). -/
def pyLower (s : PyStr) : PyStr := s.map Char.toLower

/-- Locate the leftmost occurrence of `pat` in `s`: returns the part
before the occurrence and the part after it (`pat` itself removed). -/
def splitFirst (pat : PyStr) : PyStr → Option (PyStr × PyStr)
  | [] => none
  | c :: rest =>
    if pat.isPrefixOf (c :: rest) then
      some ([], (c :: rest).drop pat.length)
    else
      match splitFirst pat rest with
      | some (pre, post) => some (c :: pre, post)
      | none => none

/-- Python `pat in s` (membership test for a non-empty pattern). -/
def containsSub (s pat : PyStr) : Bool := (splitFirst pat s).isSome

/-- Fuel-driven worker for `pySplit`; `fuel > s.length` always suffices
for a non-empty separator. -/
def pySplitAux (sep : PyStr) : Nat → PyStr → List PyStr
  | 0, s => [s]
  | fuel + 1, s =>
    match splitFirst sep s with
    | some (pre, post) => pre :: pySplitAux sep fuel post
    | none => [s]

/-- Python `s.split(sep)` for a non-empty separator: split on every
non-overlapping occurrence, left to right. -/
def pySplit (sep s : PyStr) : List PyStr := pySplitAux sep (s.length + 1) s

/-- Python `line.split(sep, 1)[1]`: everything after the first occurrence.
The source only evaluates this under a `startswith` guard that guarantees
an occurrence exists. -/
def afterFirst (sep line : PyStr) : PyStr :=
  match splitFirst sep line with
  | some (_, post) => post
  | none => []

/-- One recognized piece of equipment (the `device` dict built by the
parsing loop in `detect_with_openai_vision`). -/
structure Device where
  device_type : PyStr
  brand : PyStr
  model : PyStr
  serial : PyStr
  port_count : PyStr
  confidence : PyStr
  text_on_device : PyStr
  features : PyStr
  description : PyStr
deriving Repr, DecidableEq

/-- The dict literal the source initializes each candidate with. -/
def emptyDevice : Device :=
  { device_type := ("Unknown").data
  , brand := ("Unknown").data
  , model := ("Unknown").data
  , serial := ("Unknown").data
  , port_count := ("Unknown").data
  , confidence := ("Unknown").data
  , text_on_device := []
  , features := []
  , description := [] }

def DEVICE_START : PyStr := ("===DEVICE_START===").data
def DEVICE_END : PyStr := ("===DEVICE_END===").data

/-- The per-line `if/elif` chain of the source: assign
`line.split(':', 1)[1].strip()` to the field named by the prefix. -/
def applyLine (d : Device) (line : PyStr) : Device :=
  if ("DEVICE_TYPE:").data.isPrefixOf line then
    { d with device_type := pyStrip (afterFirst ([':']) line) }
  else if ("BRAND:").data.isPrefixOf line then
    { d with brand := pyStrip (afterFirst ([':']) line) }
  else if ("MODEL:").data.isPrefixOf line then
    { d with model := pyStrip (afterFirst ([':']) line) }
  else if ("SERIAL:").data.isPrefixOf line then
    { d with serial := pyStrip (afterFirst ([':']) line) }
  else if ("PORT_COUNT:").data.isPrefixOf line then
    { d with port_count := pyStrip (afterFirst ([':']) line) }
  else if ("CONFIDENCE:").data.isPrefixOf line then
    { d with confidence := pyStrip (afterFirst ([':']) line) }
  else if ("TEXT_ON_DEVICE:").data.isPrefixOf line then
    { d with text_on_device := pyStrip (afterFirst ([':']) line) }
  else if ("FEATURES:").data.isPrefixOf line then
    { d with features := pyStrip (afterFirst ([':']) line) }
  else if ("DESCRIPTION:").data.isPrefixOf line then
    { d with description := pyStrip (afterFirst ([':']) line) }
  else d

/-- The source's `device_text = block.split('===DEVICE_END===')[0]`. -/
def deviceText (block : PyStr) : PyStr :=
  (pySplit DEVICE_END block).headD []

/-- The `device` dict after running the per-line `for line in lines` loop
over `device_text.split('\n')`. -/
def candidateDevice (block : PyStr) : Device :=
  (pySplit (['\n']) (deviceText block)).foldl applyLine emptyDevice

/-- The records one segment of the `'===DEVICE_START==='` split
contributes: the body of the `for block in device_blocks` loop, guarded by
`'===DEVICE_END===' in block` and by the final
`device['device_type'] != 'Unknown'` acceptance test. -/
def parseBlockDevices (block : PyStr) : List Device :=
  if containsSub block DEVICE_END then
    if (candidateDevice block).device_type ≠ ("Unknown").data then
      [candidateDevice block]
    else []
  else []

/-- The response-to-device-list conversion of `detect_with_openai_vision`:
sentinel check, split on `'===DEVICE_START==='`, per-segment parsing,
in input order. -/
def parseDevices (result_text : PyStr) : List Device :=
  if containsSub result_text (("NO_DEVICE_DETECTED").data) then []
  else ((pySplit DEVICE_START result_text).map parseBlockDevices).flatten

/-- One outcome of the remote `client.chat.completions.create` call, as
discriminated by the `except` chain of the source: a well-formed success
carrying the textual payload, a `Timeout`-class exception, a
`RequestException`-class exception, an `HTTPException`, or any other
exception carrying its `str(e)` message. -/
inductive CallResult where
  | ok (payload : PyStr)
  | timeoutExc
  | requestExc (msg : PyStr)
  | httpExc (status_code : Nat) (detail : PyStr)
  | genericExc (msg : PyStr)
deriving Repr, DecidableEq

/-- A raised `HTTPException` (status code plus detail string). -/
structure PyHTTPException where
  status_code : Nat
  detail : PyStr
deriving Repr, DecidableEq

/-- The source's `retry_delay = 1` (seconds). -/
def retry_delay : Nat := 1

/-- The message-sniffing test of the final `except Exception` handler:
`'timeout' in error_str or 'timed out' in error_str` over `str(e).lower()`. -/
def isTimeoutMessage (msg : PyStr) : Bool :=
  containsSub (pyLower msg) (("timeout").data) ||
  containsSub (pyLower msg) (("timed out").data)

def timeoutAfterDetail (max_retries : Nat) : PyStr :=
  ("OpenAI API request timed out after ").data ++ (toString max_retries).data ++
  (" attempts. The image may be too large or the service is slow. Please try again with a smaller image.").data

def timedOutGenericDetail : PyStr :=
  ("OpenAI API request timed out. Please try again with a smaller image or check your network connection.").data

def visionErrorDetail (msg : PyStr) : PyStr :=
  ("OpenAI Vision API error: ").data ++ msg

def noResponseDetail : PyStr :=
  ("Failed to get response from OpenAI API after all retries").data

/-- What one loop iteration does with the attempt's outcome: exit the
loop with the payload, sleep `wait` seconds and continue, or raise. -/
inductive StepAction where
  | succeed (payload : PyStr)
  | retryAfter (wait : Nat)
  | fail (e : PyHTTPException)
deriving Repr, DecidableEq

/-- The `except` chain of the retry loop for attempt index `attempt`
(0-based) out of `max_retries`: timeouts and request-level transport
errors back off and retry while `attempt < max_retries - 1` and raise 504
resp. 503 on the final attempt; `HTTPException` re-raises; any other
exception is retried like a timeout when its message contains
`timeout`/`timed out` (504 on the final attempt) and otherwise raises 500
at once. -/
def classifyStep (max_retries attempt : Nat) : CallResult → StepAction
  | .ok payload => .succeed payload
  | .timeoutExc =>
    if attempt < max_retries - 1 then
      .retryAfter (retry_delay * 2 ^ attempt)
    else
      .fail ⟨504, timeoutAfterDetail max_retries⟩
  | .requestExc msg =>
    if attempt < max_retries - 1 then
      .retryAfter (retry_delay * 2 ^ attempt)
    else
      .fail ⟨503, visionErrorDetail msg⟩
  | .httpExc status_code detail => .fail ⟨status_code, detail⟩
  | .genericExc msg =>
    if isTimeoutMessage msg then
      if attempt < max_retries - 1 then
        .retryAfter (retry_delay * 2 ^ attempt)
      else
        .fail ⟨504, timedOutGenericDetail⟩
    else
      .fail ⟨500, visionErrorDetail msg⟩

/-- Either the payload returned on success or the `HTTPException` raised. -/
inductive ExecResult where
  | returned (payload : PyStr)
  | raised (e : PyHTTPException)
deriving Repr, DecidableEq

/-- Observable result of one `execute` run: how many remote attempts were
made, the sequence of `time.sleep` durations in order, and either the
returned payload or the raised `HTTPException`. -/
structure RetryOutcome where
  attempts : Nat
  sleeps : List Nat
  result : ExecResult
deriving Repr, DecidableEq

/-- The `for attempt in range(max_retries)` loop; `call n` is the outcome
of attempt `n` (0-based), `fuel` counts the remaining iterations.
Running out of iterations without a `break` or a raise reaches the
`if not response` guard, which raises 500. -/
def retryAux (call : Nat → CallResult) (max_retries : Nat) :
    Nat → List Nat → Nat → RetryOutcome
  | attempt, sleeps, 0 => ⟨attempt, sleeps, .raised ⟨500, noResponseDetail⟩⟩
  | attempt, sleeps, fuel + 1 =>
    match classifyStep max_retries attempt (call attempt) with
    | .succeed payload => ⟨attempt + 1, sleeps, .returned payload⟩
    | .retryAfter wait => retryAux call max_retries (attempt + 1) (sleeps ++ [wait]) fuel
    | .fail e => ⟨attempt + 1, sleeps, .raised e⟩

/-- One full run of the retry loop, starting at attempt 0 with no sleeps
performed. -/
def executeVision (call : Nat → CallResult) (max_retries : Nat) : RetryOutcome :=
  retryAux call max_retries 0 [] max_retries

/-! Supporting lemmas about the embedded string primitives. -/

theorem splitFirst_eq_append {pat : PyStr} :
    ∀ {s pre post : PyStr}, splitFirst pat s = some (pre, post) →
      s = pre ++ pat ++ post := by
  intro s
  induction s with
  | nil => intro pre post h; simp [splitFirst] at h
  | cons c rest ih =>
    intro pre post h
    rw [splitFirst] at h
    by_cases hp : pat.isPrefixOf (c :: rest)
    · rw [if_pos hp] at h
      injection h with h
      injection h with h1 h2
      subst h1; subst h2
      have hpre : pat <+: (c :: rest) := List.isPrefixOf_iff_prefix.mp hp
      have := List.prefix_iff_eq_append.mp hpre
      simpa using this.symm
    · rw [if_neg hp] at h
      cases hsf : splitFirst pat rest with
      | some pp =>
        obtain ⟨pre', post'⟩ := pp
        rw [hsf] at h
        injection h with h
        injection h with h1 h2
        subst h1; subst h2
        have := ih hsf
        simp [this]
      | none => rw [hsf] at h; exact absurd h (by simp)

theorem splitFirst_post_length {pat s pre post : PyStr}
    (h : splitFirst pat s = some (pre, post)) (hpat : pat ≠ []) :
    post.length < s.length := by
  have hs := splitFirst_eq_append h
  have hlen : s.length = pre.length + pat.length + post.length := by
    rw [hs]; simp [List.length_append]; omega
  have hpos : 0 < pat.length := List.length_pos.mpr hpat
  omega

theorem splitFirst_append {pat : PyStr} (b : PyStr) :
    ∀ {s pre post : PyStr}, splitFirst pat s = some (pre, post) →
      splitFirst pat (s ++ b) = some (pre, post ++ b) := by
  intro s
  induction s with
  | nil => intro pre post h; simp [splitFirst] at h
  | cons c rest ih =>
    intro pre post h
    rw [splitFirst] at h
    rw [List.cons_append, splitFirst]
    by_cases hp : pat.isPrefixOf (c :: rest)
    · rw [if_pos hp] at h
      injection h with h
      injection h with h1 h2
      subst h1; subst h2
      have hpre : pat <+: (c :: rest) := List.isPrefixOf_iff_prefix.mp hp
      have hp2 : pat.isPrefixOf (c :: (rest ++ b)) := by
        rw [List.isPrefixOf_iff_prefix, show c :: (rest ++ b) = (c :: rest) ++ b from rfl]
        exact hpre.trans (List.prefix_append _ _)
      rw [if_pos hp2]
      have hdrop : (c :: (rest ++ b)).drop pat.length =
          (c :: rest).drop pat.length ++ b := by
        rw [show c :: (rest ++ b) = (c :: rest) ++ b from rfl]
        exact List.drop_append_of_le_length hpre.length_le
      rw [hdrop]
    · rw [if_neg hp] at h
      cases hsf : splitFirst pat rest with
      | some pp =>
        obtain ⟨pre', post'⟩ := pp
        rw [hsf] at h
        injection h with h
        injection h with h1 h2
        subst h1; subst h2
        have hplen : pat.length ≤ rest.length := by
          have := splitFirst_eq_append hsf
          have : rest.length = pre'.length + pat.length + post'.length := by
            rw [this]; simp [List.length_append]; omega
          omega
        have hp2 : ¬ pat.isPrefixOf (c :: (rest ++ b)) := by
          intro hcon
          apply hp
          rw [List.isPrefixOf_iff_prefix] at hcon ⊢
          rw [List.prefix_iff_eq_take] at hcon ⊢
          calc pat = List.take pat.length ((c :: rest) ++ b) := hcon
            _ = List.take pat.length (c :: rest) :=
                List.take_append_of_le_length (by simp; omega)
        rw [if_neg hp2, ih hsf]
      | none => rw [hsf] at h; exact absurd h (by simp)

theorem pySplitAux_congr {sep : PyStr} (hsep : sep ≠ []) :
    ∀ (fuel₁ fuel₂ : Nat) (s : PyStr), s.length < fuel₁ → s.length < fuel₂ →
      pySplitAux sep fuel₁ s = pySplitAux sep fuel₂ s := by
  intro fuel₁
  induction fuel₁ with
  | zero => intro fuel₂ s h1 _; omega
  | succ f ih =>
    intro fuel₂ s h1 h2
    cases fuel₂ with
    | zero => omega
    | succ f2 =>
      rw [pySplitAux, pySplitAux]
      cases hsf : splitFirst sep s with
      | none => rfl
      | some pp =>
        obtain ⟨pre, post⟩ := pp
        have hl := splitFirst_post_length hsf hsep
        simp only []
        rw [ih f2 post (by omega) (by omega)]

theorem pySplit_eq (sep s : PyStr) (hsep : sep ≠ []) :
    pySplit sep s = (match splitFirst sep s with
      | some (pre, post) => pre :: pySplit sep post
      | none => [s]) := by
  rw [pySplit, pySplitAux]
  cases hsf : splitFirst sep s with
  | none => rfl
  | some pp =>
    obtain ⟨pre, post⟩ := pp
    have hl := splitFirst_post_length hsf hsep
    simp only []
    rw [pySplit, pySplitAux_congr hsep s.length (post.length + 1) post (by omega) (by omega)]

theorem pySplit_eq_single {sep s : PyStr} (h : containsSub s sep = false) :
    pySplit sep s = [s] := by
  rw [containsSub] at h
  have hn : splitFirst sep s = none := by
    cases hsf : splitFirst sep s with
    | none => rfl
    | some pp => rw [hsf] at h; simp at h
  rw [pySplit, pySplitAux, hn]

theorem containsSub_append_left {pat b : PyStr} (h : containsSub b pat = true) :
    ∀ a : PyStr, containsSub (a ++ b) pat = true := by
  intro a
  induction a with
  | nil => simpa using h
  | cons c a' ih =>
    show (splitFirst pat (c :: (a' ++ b))).isSome = true
    rw [splitFirst]
    by_cases hp : pat.isPrefixOf (c :: (a' ++ b))
    · rw [if_pos hp]; rfl
    · rw [if_neg hp]
      cases hsf : splitFirst pat (a' ++ b) with
      | some pp => obtain ⟨pre, post⟩ := pp; rfl
      | none => rw [containsSub, hsf] at ih; simp at ih

theorem applyLine_device_type {d : Device} {line : PyStr}
    (h : ("DEVICE_TYPE:").data.isPrefixOf line = false) :
    (applyLine d line).device_type = d.device_type := by
  rw [applyLine]
  split_ifs with h1 h2 h3 h4 h5 h6 h7 h8 h9 <;>
    first
      | rfl
      | (rw [h] at h1; exact absurd h1 (by decide))

theorem foldl_applyLine_device_type :
    ∀ (lines : List PyStr) (d : Device),
      (∀ l ∈ lines, ("DEVICE_TYPE:").data.isPrefixOf l = false) →
      (lines.foldl applyLine d).device_type = d.device_type := by
  intro lines
  induction lines with
  | nil => intro d _; rfl
  | cons l ls ih =>
    intro d h
    rw [List.foldl_cons,
        ih _ (fun x hx => h x (List.mem_cons_of_mem _ hx)),
        applyLine_device_type (h l (List.mem_cons_self _ _))]

theorem parseBlockDevices_of_no_end {block : PyStr}
    (h : containsSub block DEVICE_END = false) :
    parseBlockDevices block = [] := by
  rw [parseBlockDevices, h]
  rfl

/-! Claim theorems for the ResponseParser component. -/

/-- C1 (counterexample): an input with zero occurrences of
`===DEVICE_START===` and no sentinel, but containing `===DEVICE_END===`
and a `DEVICE_TYPE:` line, yields a non-empty result: Python's `split`
keeps the text before the first delimiter as a segment of its own and the
source parses it like any other segment. -/
theorem parse_without_start_counterexample :
    containsSub (("DEVICE_TYPE: Router\n===DEVICE_END===").data) DEVICE_START = false ∧
    containsSub (("DEVICE_TYPE: Router\n===DEVICE_END===").data)
      (("NO_DEVICE_DETECTED").data) = false ∧
    parseDevices (("DEVICE_TYPE: Router\n===DEVICE_END===").data) =
      [{ emptyDevice with device_type := ("Router").data }] ∧
    parseDevices (("DEVICE_TYPE: Router\n===DEVICE_END===").data) ≠ [] :=
  ⟨by decide, by decide, by decide, by decide⟩

/-- C1 (amended): for every input containing neither the sentinel, nor
`===DEVICE_START===`, nor `===DEVICE_END===`, `parse` returns the empty
sequence regardless of recognized field-prefix lines. -/
theorem parse_empty_of_no_delimiters :
    ∀ text : PyStr, containsSub text (("NO_DEVICE_DETECTED").data) = false →
      containsSub text DEVICE_START = false →
      containsSub text DEVICE_END = false →
      parseDevices text = [] := by
  intro text h1 h2 h3
  rw [parseDevices, h1, pySplit_eq_single h2]
  simp [parseBlockDevices_of_no_end h3]

theorem parse_empty_of_no_delimiters_witness :
    parseDevices (("BRAND: Cisco").data) = [] :=
  parse_empty_of_no_delimiters (("BRAND: Cisco").data) (by decide) (by decide) (by decide)

/-- C4: any input containing the sentinel token `NO_DEVICE_DETECTED`
parses to the empty sequence, whatever else it contains: the sentinel
check precedes all block parsing. -/
theorem parse_sentinel_empty :
    ∀ text : PyStr, containsSub text (("NO_DEVICE_DETECTED").data) = true →
      parseDevices text = [] := by
  intro text h
  rw [parseDevices, h]
  rfl

theorem parse_sentinel_empty_witness :
    parseDevices
      (("===DEVICE_START===\nDEVICE_TYPE: Router\n===DEVICE_END===\nNO_DEVICE_DETECTED").data) = [] :=
  parse_sentinel_empty
    (("===DEVICE_START===\nDEVICE_TYPE: Router\n===DEVICE_END===\nNO_DEVICE_DETECTED").data)
    (by decide)

/-- C7: every record `parse` emits has a `device_type` different from the
`"Unknown"` default (so it was set by a recognized `DEVICE_TYPE:` line),
and a segment none of whose lines starts with `DEVICE_TYPE:` contributes
zero records, whatever other recognized prefix lines it contains. -/
theorem parse_requires_device_type :
    (∀ (text : PyStr) (dev : Device), dev ∈ parseDevices text →
        dev.device_type ≠ ("Unknown").data) ∧
    (∀ block : PyStr,
        (∀ l ∈ pySplit (['\n']) (deviceText block),
            ("DEVICE_TYPE:").data.isPrefixOf l = false) →
        parseBlockDevices block = []) := by
  constructor
  · intro text dev hmem
    cases hs : containsSub text (("NO_DEVICE_DETECTED").data) with
    | true => rw [parseDevices, hs] at hmem; simp at hmem
    | false =>
      rw [parseDevices, hs] at hmem
      simp only [Bool.false_eq_true, if_false, List.mem_flatten, List.mem_map] at hmem
      obtain ⟨l, ⟨blk, hblk, rfl⟩, hdev⟩ := hmem
      rw [parseBlockDevices] at hdev
      split at hdev
      · split at hdev
        · rw [List.mem_singleton] at hdev
          subst hdev
          assumption
        · simp at hdev
      · simp at hdev
  · intro block h
    have ht : (candidateDevice block).device_type = ("Unknown").data :=
      foldl_applyLine_device_type _ _ h
    simp [parseBlockDevices, ht]

theorem parse_requires_device_type_witness :
    parseBlockDevices (("BRAND: Cisco\n===DEVICE_END===").data) = [] :=
  parse_requires_device_type.2 (("BRAND: Cisco\n===DEVICE_END===").data) (by decide)

/-- C8: a segment without `===DEVICE_END===` contributes zero records,
and for a segment that does contain it, everything after the first end
delimiter is ignored: appending arbitrary text changes nothing. -/
theorem block_requires_end_delimiter :
    (∀ block : PyStr, containsSub block DEVICE_END = false →
        parseBlockDevices block = []) ∧
    (∀ block b : PyStr, containsSub block DEVICE_END = true →
        parseBlockDevices (block ++ b) = parseBlockDevices block) := by
  constructor
  · exact fun _ h => parseBlockDevices_of_no_end h
  · intro block b h
    obtain ⟨⟨pre, post⟩, hsf⟩ : ∃ pp, splitFirst DEVICE_END block = some pp := by
      rw [containsSub] at h
      exact Option.isSome_iff_exists.mp h
    have hsf2 : splitFirst DEVICE_END (block ++ b) = some (pre, post ++ b) :=
      splitFirst_append b hsf
    have h2 : containsSub (block ++ b) DEVICE_END = true := by
      rw [containsSub, hsf2]; rfl
    have e1 : deviceText block = pre := by
      rw [deviceText, pySplit_eq _ _ (by decide), hsf]
      rfl
    have e2 : deviceText (block ++ b) = pre := by
      rw [deviceText, pySplit_eq _ _ (by decide), hsf2]
      rfl
    rw [parseBlockDevices, parseBlockDevices, h, h2, candidateDevice, candidateDevice, e1, e2]

theorem block_requires_end_delimiter_witness :
    parseBlockDevices (("\nDEVICE_TYPE: Router\n").data) = [] ∧
    parseBlockDevices
        ((("\nDEVICE_TYPE: Router\n===DEVICE_END===").data) ++ (("\nignored trailing text").data)) =
      parseBlockDevices (("\nDEVICE_TYPE: Router\n===DEVICE_END===").data) :=
  ⟨block_requires_end_delimiter.1 (("\nDEVICE_TYPE: Router\n").data) (by decide),
   block_requires_end_delimiter.2 (("\nDEVICE_TYPE: Router\n===DEVICE_END===").data)
     (("\nignored trailing text").data) (by decide)⟩

/-- C9: the canonical one-block input yields exactly one record with
`device_type` `"Router"`, `brand` `"Cisco"` and every other field at its
default, and a value keeps the part after the first colon, so it may
itself contain colons. -/
theorem parse_single_block_example :
    parseDevices
        (("===DEVICE_START===\nDEVICE_TYPE: Router\nBRAND: Cisco\n===DEVICE_END===").data) =
      [{ emptyDevice with device_type := ("Router").data, brand := ("Cisco").data }] ∧
    parseDevices
        (("===DEVICE_START===\nDEVICE_TYPE: Router\nMODEL: ab:cd\n===DEVICE_END===").data) =
      [{ emptyDevice with device_type := ("Router").data, model := ("ab:cd").data }] :=
  ⟨by decide, by decide⟩

/-- C10: a `DEVICE_TYPE: Unknown` line stores exactly the default value
`"Unknown"`, so the acceptance test cannot distinguish it from an unset
field and the record is discarded just as when no type line is present. -/
theorem explicit_unknown_discarded :
    (∀ d : Device, applyLine d (("DEVICE_TYPE: Unknown").data) =
        { d with device_type := ("Unknown").data }) ∧
    parseDevices
        (("===DEVICE_START===\nDEVICE_TYPE: Unknown\nBRAND: Cisco\n===DEVICE_END===").data) = [] ∧
    parseDevices (("===DEVICE_START===\nBRAND: Cisco\n===DEVICE_END===").data) = [] :=
  ⟨fun _ => rfl, by decide, by decide⟩

/-! Claim theorems for the VisionRequestExecutor component. -/

/-- Timeout classification in the sense of the spec: an explicit
`Timeout`-class exception, or a generic exception whose message text
contains `timeout` or `timed out`. -/
def isTimeoutClass : CallResult → Prop
  | .timeoutExc => True
  | .genericExc msg => isTimeoutMessage msg = true
  | _ => False

theorem isTimeoutClass_timeout : isTimeoutClass CallResult.timeoutExc := True.intro

theorem isTimeoutClass_generic {msg : PyStr} (h : isTimeoutMessage msg = true) :
    isTimeoutClass (CallResult.genericExc msg) := h

theorem retryAux_step_retry {call : Nat → CallResult}
    {max_retries attempt wait fuel : Nat} {sleeps : List Nat}
    (h : classifyStep max_retries attempt (call attempt) = StepAction.retryAfter wait) :
    retryAux call max_retries attempt sleeps (fuel + 1) =
      retryAux call max_retries (attempt + 1) (sleeps ++ [wait]) fuel := by
  rw [retryAux, h]

theorem retryAux_step_fail {call : Nat → CallResult}
    {max_retries attempt fuel : Nat} {sleeps : List Nat} {e : PyHTTPException}
    (h : classifyStep max_retries attempt (call attempt) = StepAction.fail e) :
    retryAux call max_retries attempt sleeps (fuel + 1) =
      ⟨attempt + 1, sleeps, ExecResult.raised e⟩ := by
  rw [retryAux, h]

theorem retryAux_step_ok {call : Nat → CallResult}
    {max_retries attempt fuel : Nat} {sleeps : List Nat} {payload : PyStr}
    (h : classifyStep max_retries attempt (call attempt) = StepAction.succeed payload) :
    retryAux call max_retries attempt sleeps (fuel + 1) =
      ⟨attempt + 1, sleeps, ExecResult.returned payload⟩ := by
  rw [retryAux, h]

theorem classifyStep_timeoutClass_retry {r : CallResult} {max_retries attempt : Nat}
    (hr : isTimeoutClass r) (hlt : attempt < max_retries - 1) :
    classifyStep max_retries attempt r = StepAction.retryAfter (retry_delay * 2 ^ attempt) := by
  cases r with
  | timeoutExc =>
    simp only [classifyStep]
    rw [if_pos hlt]
  | genericExc msg =>
    have hm : isTimeoutMessage msg = true := hr
    simp only [classifyStep, hm, if_true]
    rw [if_pos hlt]
  | ok payload => exact hr.elim
  | requestExc msg => exact hr.elim
  | httpExc s d => exact hr.elim

theorem classifyStep_timeoutClass_final {r : CallResult} {max_retries attempt : Nat}
    (hr : isTimeoutClass r) (hge : ¬ attempt < max_retries - 1) :
    ∃ e, classifyStep max_retries attempt r = StepAction.fail e ∧
      e.status_code = 504 ∧
      containsSub e.detail (("smaller image").data) = true := by
  cases r with
  | timeoutExc =>
    refine ⟨⟨504, timeoutAfterDetail max_retries⟩, ?_, rfl, ?_⟩
    · simp only [classifyStep]
      rw [if_neg hge]
    · rw [timeoutAfterDetail]
      exact containsSub_append_left (by decide) _
  | genericExc msg =>
    have hm : isTimeoutMessage msg = true := hr
    refine ⟨⟨504, timedOutGenericDetail⟩, ?_, rfl, by decide⟩
    simp only [classifyStep, hm, if_true]
    rw [if_neg hge]
  | ok payload => exact hr.elim
  | requestExc msg => exact hr.elim
  | httpExc s d => exact hr.elim

/-- C2: if every attempt fails with a timeout classification and
`max_retries = 3`, the executor makes exactly 3 attempts, sleeps exactly
twice (1 then 2 seconds), and raises a gateway-timeout (504) error whose
detail advises a smaller image — never the generic 500 error. -/
theorem exhausted_timeouts_raise_504 :
    ∀ call : Nat → CallResult, (∀ n, n < 3 → isTimeoutClass (call n)) →
      (executeVision call 3).attempts = 3 ∧
      (executeVision call 3).sleeps = [1, 2] ∧
      ∃ e, (executeVision call 3).result = ExecResult.raised e ∧
        e.status_code = 504 ∧ e.status_code ≠ 500 ∧
        containsSub e.detail (("smaller image").data) = true := by
  intro call h
  have s0 := classifyStep_timeoutClass_retry (h 0 (by omega)) (show (0:Nat) < 3 - 1 by omega)
  have s1 := classifyStep_timeoutClass_retry (h 1 (by omega)) (show (1:Nat) < 3 - 1 by omega)
  obtain ⟨e, he, hcode, hdet⟩ :=
    classifyStep_timeoutClass_final (h 2 (by omega)) (show ¬ (2:Nat) < 3 - 1 by omega)
  have e1 : executeVision call 3 = retryAux call 3 1 [1] 2 := retryAux_step_retry s0
  have e2 : retryAux call 3 1 [1] 2 = retryAux call 3 2 [1, 2] 1 := retryAux_step_retry s1
  have e3 : retryAux call 3 2 [1, 2] 1 = ⟨3, [1, 2], ExecResult.raised e⟩ :=
    retryAux_step_fail he
  rw [e1, e2, e3]
  exact ⟨rfl, rfl, e, rfl, hcode, by rw [hcode]; decide, hdet⟩

theorem exhausted_timeouts_raise_504_witness :
    (executeVision (fun _ => CallResult.timeoutExc) 3).attempts = 3 ∧
    (executeVision (fun _ => CallResult.timeoutExc) 3).sleeps = [1, 2] ∧
    ∃ e, (executeVision (fun _ => CallResult.timeoutExc) 3).result = ExecResult.raised e ∧
      e.status_code = 504 ∧ e.status_code ≠ 500 ∧
      containsSub e.detail (("smaller image").data) = true :=
  exhausted_timeouts_raise_504 (fun _ => CallResult.timeoutExc) (fun _ _ => True.intro)

/-- C3: with timeouts on attempts 1 and 2 and a success on attempt 3
(`max_retries = 3`), the executor returns the success payload after
exactly 3 attempts, sleeping 1 then 2 seconds before attempts 2 and 3. -/
theorem retry_then_success_returns_payload :
    ∀ (payload : PyStr) (call : Nat → CallResult),
      isTimeoutClass (call 0) → isTimeoutClass (call 1) →
      call 2 = CallResult.ok payload →
      executeVision call 3 = ⟨3, [1, 2], ExecResult.returned payload⟩ := by
  intro payload call h0 h1 h2
  have s0 := classifyStep_timeoutClass_retry h0 (show (0:Nat) < 3 - 1 by omega)
  have s1 := classifyStep_timeoutClass_retry h1 (show (1:Nat) < 3 - 1 by omega)
  have s2 : classifyStep 3 2 (call 2) = StepAction.succeed payload := by
    rw [h2]
    rfl
  have e1 : executeVision call 3 = retryAux call 3 1 [1] 2 := retryAux_step_retry s0
  have e2 : retryAux call 3 1 [1] 2 = retryAux call 3 2 [1, 2] 1 := retryAux_step_retry s1
  have e3 : retryAux call 3 2 [1, 2] 1 = ⟨3, [1, 2], ExecResult.returned payload⟩ :=
    retryAux_step_ok s2
  rw [e1, e2, e3]

/-- The retry scenario's concrete remote call: timeout, timeout, success. -/
def retryScenarioCall : Nat → CallResult
  | 0 => CallResult.timeoutExc
  | 1 => CallResult.timeoutExc
  | _ => CallResult.ok (("devices text").data)

theorem retry_then_success_returns_payload_witness :
    executeVision retryScenarioCall 3 =
      ⟨3, [1, 2], ExecResult.returned (("devices text").data)⟩ :=
  retry_then_success_returns_payload (("devices text").data) retryScenarioCall
    True.intro True.intro rfl

/-- C5: a generic exception whose message mentions `timeout`/`timed out`
is classified exactly like an explicit timeout: on a non-final attempt it
backs off and retries (same action as the explicit timeout), and on the
final attempt it raises the 504 gateway-timeout error, never the
non-retryable 500. -/
theorem generic_timeout_message_is_retryable :
    ∀ (msg : PyStr) (max_retries attempt : Nat), isTimeoutMessage msg = true →
      (attempt < max_retries - 1 →
        classifyStep max_retries attempt (CallResult.genericExc msg) =
          StepAction.retryAfter (retry_delay * 2 ^ attempt) ∧
        classifyStep max_retries attempt (CallResult.genericExc msg) =
          classifyStep max_retries attempt CallResult.timeoutExc) ∧
      (¬ attempt < max_retries - 1 →
        ∃ e, classifyStep max_retries attempt (CallResult.genericExc msg) =
            StepAction.fail e ∧ e.status_code = 504 ∧ e.status_code ≠ 500) := by
  intro msg m a hm
  constructor
  · intro hlt
    constructor
    · exact classifyStep_timeoutClass_retry (isTimeoutClass_generic hm) hlt
    · rw [classifyStep_timeoutClass_retry (isTimeoutClass_generic hm) hlt,
          classifyStep_timeoutClass_retry isTimeoutClass_timeout hlt]
  · intro hge
    obtain ⟨e, he, hc, _⟩ := classifyStep_timeoutClass_final (isTimeoutClass_generic hm) hge
    exact ⟨e, he, hc, by rw [hc]; decide⟩

theorem generic_timeout_message_is_retryable_witness :
    classifyStep 3 0 (CallResult.genericExc (("Read timed out").data)) =
      StepAction.retryAfter 1 ∧
    ∃ e, classifyStep 3 2 (CallResult.genericExc (("Read timed out").data)) =
        StepAction.fail e ∧ e.status_code = 504 ∧ e.status_code ≠ 500 :=
  ⟨((generic_timeout_message_is_retryable (("Read timed out").data) 3 0 (by decide)).1
      (by omega)).1,
   (generic_timeout_message_is_retryable (("Read timed out").data) 3 2 (by decide)).2
      (by omega)⟩

/-- C6: a generic exception whose message mentions no timeout raises the
500 internal error carrying the remote message at once: one attempt, no
sleep, whatever `max_retries` allows. -/
theorem immediate_generic_error_raises_500 :
    ∀ (msg : PyStr) (max_retries : Nat) (call : Nat → CallResult),
      isTimeoutMessage msg = false → call 0 = CallResult.genericExc msg →
      1 ≤ max_retries →
      executeVision call max_retries =
        ⟨1, [], ExecResult.raised ⟨500, visionErrorDetail msg⟩⟩ := by
  intro msg m call hmsg hc hm
  obtain ⟨k, rfl⟩ : ∃ k, m = k + 1 := ⟨m - 1, by omega⟩
  have hstep : classifyStep (k + 1) 0 (call 0) =
      StepAction.fail ⟨500, visionErrorDetail msg⟩ := by
    rw [hc]
    simp [classifyStep, hmsg]
  exact retryAux_step_fail hstep

theorem immediate_generic_error_raises_500_witness :
    executeVision (fun _ => CallResult.genericExc (("invalid api key").data)) 3 =
      ⟨1, [], ExecResult.raised ⟨500, visionErrorDetail (("invalid api key").data)⟩⟩ :=
  immediate_generic_error_raises_500 (("invalid api key").data) 3
    (fun _ => CallResult.genericExc (("invalid api key").data)) (by decide) rfl (by omega)
